import Mathlib

/-!
# Verification of the market-pi generic table-query translator

A shallow embedding of the query-translation layer of `server.js` (the
Express handlers `app.get/post/patch/delete('/api/:table')`, the helper
`parseFilter` and the select parser `parseSupabaseSelect` with its static
`relationships` map), together with theorems settling the specification
claims about it.

Conventions of the embedding:
* a querystring is a list of `(key, value)` pairs in `Object.keys` order
  (Express query objects have unique string keys);
* the JavaScript character class `\w` is `[A-Za-z0-9_]` (`isWordChar`);
  `\s` is modelled by `Char.isWhitespace`;
* JavaScript's `.` in a regex does not match a line terminator, and `$`
  (without the `m` flag) matches only at the end of the string — so
  `^(\w+)\.(.*)$` fails on values whose tail holds a line terminator;
* SQL text is built as the source builds it, by string concatenation;
  parameter lists are lists of strings (values are opaque here);
* the database itself is outside the repository: where a claim needs its
  behaviour, a definition carries a `Modelled from the spec:` comment.
-/

namespace MarketPi

/-- JavaScript's `\w` character class: ASCII letters, digits and underscore. -/
def isWordChar (c : Char) : Bool :=
  c.isAlphanum || c == '_'

/-- JavaScript line terminators, which `.` in a regex does not match:
LF, CR, U+2028 and U+2029. -/
def isLineTerminator (c : Char) : Bool :=
  c == '\n' || c == '\r' || c == '\u2028' || c == '\u2029'

/-- The result of `parseFilter`: an operator token and a value. -/
structure Filter where
  op : String
  value : String
deriving Repr, DecidableEq

/-- `server.js` line 222, `parseFilter`: match the raw value against
`^(\w+)\.(.*)$`; on a match the word run is the operator and the rest the
value, otherwise the whole string is the value with operator `eq`.
The regex `.` does not cross a line terminator. -/
def parseFilter (raw : String) : Filter :=
  let cs := raw.toList
  let w := cs.takeWhile isWordChar
  match w, cs.drop w.length with
  | _ :: _, '.' :: tail =>
      if tail.any isLineTerminator then ⟨"eq", raw⟩
      else ⟨String.mk w, String.mk tail⟩
  | _, _ => ⟨"eq", raw⟩

/-- One entry of the static `relationships` map. -/
structure RelInfo where
  foreignKey : String
  targetTable : String
deriving Repr, DecidableEq

/-- `server.js` line 230, the static relationship map:
table name → relation name → `{foreignKey, targetTable}`. -/
def relationships (table relName : String) : Option RelInfo :=
  if table == "products" then
    if relName == "categories" then some ⟨"category_id", "categories"⟩
    else if relName == "suppliers" then some ⟨"supplier_id", "suppliers"⟩
    else none
  else if table == "stock_movements" then
    if relName == "products" then some ⟨"product_id", "products"⟩
    else if relName == "profiles" then some ⟨"user_id", "profiles"⟩
    else none
  else if table == "audit_logs" then
    if relName == "profiles" then some ⟨"user_id", "profiles"⟩
    else none
  else none

/-- JavaScript `String.prototype.trim()`: strip whitespace from both ends.
(A structural model; Lean core's `String.trim` is not used because its
byte-position loops do not reduce in the kernel.) -/
def jsTrim (s : String) : String :=
  String.mk (((s.toList.dropWhile Char.isWhitespace).reverse.dropWhile Char.isWhitespace).reverse)

/-- Split a character list at every occurrence of `sep`, keeping empty
pieces, as JavaScript `split` does with a one-character separator. -/
def splitChar (sep : Char) : List Char → List (List Char)
  | [] => [[]]
  | c :: rest =>
    match splitChar sep rest with
    | cur :: parts => if c == sep then [] :: cur :: parts else (c :: cur) :: parts
    | [] => [[]]

/-- JavaScript `str.split(sep)` for a one-character separator. -/
def jsSplit (sep : Char) (s : String) : List String :=
  (splitChar sep s.toList).map String.mk

/-- `str.replace(/\s+/g, ' ')`: each maximal whitespace run becomes one
space. `prevWs` records whether the previous character was whitespace. -/
def collapseWsAux : Bool → List Char → List Char
  | _, [] => []
  | prevWs, c :: rest =>
    if c.isWhitespace then
      if prevWs then collapseWsAux true rest
      else ' ' :: collapseWsAux true rest
    else c :: collapseWsAux false rest

/-- `selectStr.replace(/\s+/g, ' ').trim()` (`server.js` line 250). -/
def cleanWs (s : String) : String :=
  jsTrim (String.mk (collapseWsAux false s.toList))

/-- Try to match the regex `(\w+)\s*\(([^)]+)\)` at the head of `cs`.
Returns `(full match, identifier, inner text, remainder)`. The word run and
the bracket content are maximal, exactly as the greedy regex takes them. -/
def matchRelAt (cs : List Char) : Option (List Char × List Char × List Char × List Char) :=
  let w := cs.takeWhile isWordChar
  if w.isEmpty then none
  else
    let r1 := cs.drop w.length
    let sp := r1.takeWhile Char.isWhitespace
    match r1.drop sp.length with
    | '(' :: r3 =>
      let inner := r3.takeWhile (fun c => c != ')')
      if inner.isEmpty then none
      else
        match r3.drop inner.length with
        | ')' :: r4 => some (w ++ sp ++ '(' :: (inner ++ [')']), w, inner, r4)
        | _ => none
    | _ => none

/-- All matches of `(\w+)\s*\(([^)]+)\)` in scan order, as
`(full match, identifier, inner text)`: the regex engine retries from the
next character on failure and continues after the match on success. Each
successful match consumes at least one character, so `cs.length` fuel
suffices. -/
def relMatchesAux : Nat → List Char → List (List Char × List Char × List Char)
  | 0, _ => []
  | _ + 1, [] => []
  | fuel + 1, c :: rest =>
    match matchRelAt (c :: rest) with
    | some (full, name, inner, rem) => (full, name, inner) :: relMatchesAux fuel rem
    | none => relMatchesAux fuel rest

/-- The global matches of the relation regex over a string. -/
def relMatches (cs : List Char) : List (List Char × List Char × List Char) :=
  relMatchesAux cs.length cs

/-- `str.replace(pat, '')` with a plain-string pattern: remove the first
occurrence of `pat`, or return the string unchanged when absent. -/
def replaceFirstAux : List Char → List Char → List Char
  | [], _ => []
  | c :: rest, pat =>
    if pat.isPrefixOf (c :: rest) then (c :: rest).drop pat.length
    else c :: replaceFirstAux rest pat

/-- String form of `replaceFirstAux`. -/
def replaceFirst (s pat : String) : String :=
  String.mk (replaceFirstAux s.toList pat.toList)

/-- `str.replace(/,\s*,/g, ',')`: every non-overlapping `,whitespace,`
span becomes a single comma; scanning resumes after each match. Fuel is
the length of the list. -/
def collapseCommaWsAux : Nat → List Char → List Char
  | 0, cs => cs
  | _ + 1, [] => []
  | fuel + 1, ',' :: rest =>
    (match rest.drop (rest.takeWhile Char.isWhitespace).length with
     | ',' :: rest2 => ',' :: collapseCommaWsAux fuel rest2
     | _ => ',' :: collapseCommaWsAux fuel rest)
  | fuel + 1, c :: rest => c :: collapseCommaWsAux fuel rest

/-- `str.replace(/^,|,$/g, '')`: drop one leading and one trailing comma. -/
def stripEdgeCommas (s : String) : String :=
  let l := match s.toList with
    | ',' :: rest => rest
    | l => l
  let l2 := match l.reverse with
    | ',' :: rest => rest.reverse
    | _ => l
  String.mk l2

/-- A relation request recorded by `parseSupabaseSelect`. -/
structure Relation where
  name : String
  columns : List String
  foreignKey : String
  targetTable : String
deriving Repr, DecidableEq

/-- `server.js` line 245, `parseSupabaseSelect`: clean whitespace, scan for
relation-shaped tokens, record those whose identifier the `relationships`
map knows for `table`, remove every matched span (known or not) from the
string, then split the leftover on commas into the plain columns. -/
def parseSupabaseSelect (selectStr table : String) : List String × List Relation :=
  let cleaned := cleanWs selectStr
  let ms := relMatches cleaned.toList
  let relations := ms.filterMap fun m =>
    match relationships table (String.mk m.2.1) with
    | some info =>
        some { name := String.mk m.2.1,
               columns := (jsSplit ',' (String.mk m.2.2)).map jsTrim,
               foreignKey := info.foreignKey, targetTable := info.targetTable }
    | none => none
  let tempStr := ms.foldl (fun acc m => replaceFirst acc (String.mk m.1)) cleaned
  let mainColsStr :=
    jsTrim (stripEdgeCommas (String.mk (collapseCommaWsAux tempStr.toList.length tempStr.toList)))
  let mainColumns :=
    if mainColsStr == "" then []
    else (jsSplit ',' mainColsStr).filterMap fun col =>
      let t := jsTrim col
      if t == "" then none else some t
  (mainColumns, relations)

/-- JavaScript `Array.prototype.join(sep)`. -/
def joinSep (sep : String) : List String → String
  | [] => ""
  | [x] => x
  | x :: y :: rest => x ++ sep ++ joinSep sep (y :: rest)

/-- A SQL statement as handed to `pool.query`: its text and the positional
parameter values. -/
structure Stmt where
  text : String
  params : List String
deriving Repr, DecidableEq

/-- What a handler does with a request before touching the database:
reject it with an HTTP status and error message (no SQL runs), or execute
one statement. -/
inductive Outcome where
  | reject (status : Nat) (error : String)
  | exec (stmt : Stmt)
deriving Repr, DecidableEq

/-- The first value stored under `key`, as Express exposes `req.query.key`. -/
def qlookup (query : List (String × String)) (key : String) : Option String :=
  (query.find? fun kv => kv.1 == key).map (·.2)

/-- `req.query.select || '*'` (`server.js` line 345): an absent — or empty,
hence falsy — select falls back to `*`. -/
def getSelectRaw (query : List (String × String)) : String :=
  match qlookup query "select" with
  | some s => if s == "" then "*" else s
  | none => "*"

/-- The state the GET handler's filter loop threads: WHERE conditions,
parameters, ORDER BY clause and the next placeholder index. -/
structure GetAcc where
  whereConds : List String
  params : List String
  orderClause : String
  idx : Nat
deriving Repr, DecidableEq

/-- One iteration of the GET filter loop (`server.js` lines 353-376):
`select` and `count` are skipped, `order` sets the ORDER BY clause, and a
value whose parsed operator is `eq`, `neq`, `lte` or `gte` appends one
condition `table.key OP $idx` plus a parameter; anything else is dropped. -/
def getFilterStep (table : String) (acc : GetAcc) (kv : String × String) : GetAcc :=
  if kv.1 == "select" || kv.1 == "count" then acc
  else if kv.1 == "order" then
    let parts := jsSplit '.' kv.2
    let orderCol := parts.headD ""
    let orderDir := if parts.getD 1 "" == "desc" then "DESC" else "ASC"
    { acc with orderClause := " ORDER BY " ++ table ++ "." ++ orderCol ++ " " ++ orderDir }
  else
    let f := parseFilter kv.2
    if f.op == "eq" then
      { acc with whereConds := acc.whereConds ++ [table ++ "." ++ kv.1 ++ " = $" ++ toString acc.idx],
                 params := acc.params ++ [f.value], idx := acc.idx + 1 }
    else if f.op == "neq" then
      { acc with whereConds := acc.whereConds ++ [table ++ "." ++ kv.1 ++ " != $" ++ toString acc.idx],
                 params := acc.params ++ [f.value], idx := acc.idx + 1 }
    else if f.op == "lte" then
      { acc with whereConds := acc.whereConds ++ [table ++ "." ++ kv.1 ++ " <= $" ++ toString acc.idx],
                 params := acc.params ++ [f.value], idx := acc.idx + 1 }
    else if f.op == "gte" then
      { acc with whereConds := acc.whereConds ++ [table ++ "." ++ kv.1 ++ " >= $" ++ toString acc.idx],
                 params := acc.params ++ [f.value], idx := acc.idx + 1 }
    else acc

/-- The GET handler's filter loop over the whole querystring. -/
def getAcc (table : String) (query : List (String × String)) : GetAcc :=
  query.foldl (getFilterStep table) ⟨[], [], "", 1⟩

/-- The `json_build_object(...) as name` projection one relation adds to the
select clause (`server.js` lines 386-387), `", json_build_object('c1',
target.c1, ...) as name"`. `"\x27"` is a single-quote character. -/
def relProjection (rel : Relation) : String :=
  ", json_build_object(" ++
    joinSep ", " (rel.columns.map fun c => "\x27" ++ c ++ "\x27, " ++ rel.targetTable ++ "." ++ c) ++
  ") as " ++ rel.name

/-- The LEFT JOIN one relation adds (`server.js` line 388). -/
def relJoin (table : String) (rel : Relation) : String :=
  "LEFT JOIN " ++ rel.targetTable ++ " ON " ++ table ++ "." ++ rel.foreignKey ++
  " = " ++ rel.targetTable ++ ".id"

/-- The projection base of the GET select clause (`server.js` lines
379-381): the plain columns qualified with the table name, or `table.*`
when none remain. -/
def getBase (table : String) (query : List (String × String)) : String :=
  let mainColumns := (parseSupabaseSelect (getSelectRaw query) table).1
  if mainColumns.length > 0 then
    joinSep ", " (mainColumns.map fun c => if c == "*" then table ++ ".*" else table ++ "." ++ c)
  else table ++ ".*"

/-- The full GET select clause: the base plus one
`, json_build_object(...) as name` per recorded relation (`server.js`
lines 385-387). -/
def getSelectClause (table : String) (query : List (String × String)) : String :=
  ((parseSupabaseSelect (getSelectRaw query) table).2).foldl
    (fun s rel => s ++ relProjection rel) (getBase table query)

/-- The LEFT JOIN clauses, one per recorded relation (`server.js` line 388). -/
def getJoins (table : String) (query : List (String × String)) : List String :=
  ((parseSupabaseSelect (getSelectRaw query) table).2).map (relJoin table)

/-- The WHERE clause of the GET statement: empty when no condition was
collected (`server.js` line 391). -/
def getWhereStr (table : String) (query : List (String × String)) : String :=
  if (getAcc table query).whereConds.length > 0 then
    " WHERE " ++ joinSep " AND " (getAcc table query).whereConds
  else ""

/-- The statement the GET handler builds (`server.js` lines 342-392). -/
def buildGetStmt (table : String) (query : List (String × String)) : Stmt :=
  { text := "SELECT " ++ getSelectClause table query ++ " FROM " ++ table ++ " " ++
      joinSep " " (getJoins table query) ++ getWhereStr table query ++
      (getAcc table query).orderClause,
    params := (getAcc table query).params }

/-- The GET handler: it validates nothing and always executes the statement
it built. -/
def getHandler (table : String) (query : List (String × String)) : Outcome :=
  .exec (buildGetStmt table query)

/-- One iteration of the eq-only WHERE loop PATCH and DELETE share
(`server.js` lines 437-444 and 462-469): only a filter whose parsed
operator is `eq` appends `key = $idx`; every other operator is dropped.
The accumulator is `(conditions, parameters, next index)`. -/
def eqWhereStep (acc : List String × List String × Nat) (kv : String × String) :
    List String × List String × Nat :=
  let f := parseFilter kv.2
  if f.op == "eq" then
    (acc.1 ++ [kv.1 ++ " = $" ++ toString acc.2.2], acc.2.1 ++ [f.value], acc.2.2 + 1)
  else acc

/-- The PATCH handler (`server.js` lines 422-448): reject without a filter
key, then without a body field; otherwise build
`UPDATE table SET col = $i, ... WHERE conds RETURNING *`. -/
def patchHandler (table : String) (query body : List (String × String)) : Outcome :=
  let filterKeys := query.filter fun kv => kv.1 != "select"
  if filterKeys.length == 0 then .reject 400 "Missing filter for update"
  else if body.length == 0 then .reject 400 "Missing body for update"
  else
    let setClause := joinSep ", " (body.enum.map fun p => p.2.1 ++ " = $" ++ toString (p.1 + 1))
    let wh := filterKeys.foldl eqWhereStep ([], [], body.length + 1)
    .exec { text := "UPDATE " ++ table ++ " SET " ++ setClause ++ " WHERE " ++
              joinSep " AND " wh.1 ++ " RETURNING *",
            params := body.map (·.2) ++ wh.2.1 }

/-- The DELETE handler (`server.js` lines 455-472): reject without a filter
key; otherwise build `DELETE FROM table WHERE conds RETURNING *`. -/
def deleteHandler (table : String) (query : List (String × String)) : Outcome :=
  let filterKeys := query.filter fun kv => kv.1 != "select"
  if filterKeys.length == 0 then .reject 400 "Missing filter for delete"
  else
    let wh := filterKeys.foldl eqWhereStep ([], [], 1)
    .exec { text := "DELETE FROM " ++ table ++ " WHERE " ++ joinSep " AND " wh.1 ++
              " RETURNING *",
            params := wh.2.1 }

/-- A JSON object of a request body or a database row: field names paired
with (opaque) values. -/
abbrev Row := List (String × String)

/-- A POST body: a single JSON object or an array of objects. -/
inductive Body where
  | obj (fields : Row)
  | arr (objs : List Row)
deriving Repr, DecidableEq

/-- The INSERT statement POST builds for one object (`server.js` lines
408-411): columns joined with `,`, placeholders with `, `. -/
def insertStmt (table : String) (row : Row) : Stmt :=
  { text := "INSERT INTO " ++ table ++ " (" ++ joinSep "," (row.map (·.1)) ++ ") VALUES (" ++
      joinSep ", " ((List.range row.length).map fun i => "$" ++ toString (i + 1)) ++
      ") RETURNING *",
    params := row.map (·.2) }

/-- The JSON value a POST response carries: one row or an array of rows. -/
inductive PostValue where
  | one (row : Row)
  | many (rows : List Row)
deriving Repr, DecidableEq

/-- A POST response: `res.json(...)` or an error status. -/
inductive PostResponse where
  | ok (value : PostValue)
  | err (status : Nat) (msg : String)
deriving Repr, DecidableEq

/-- The visible rows of the one table a POST inserts into. -/
abbrev Db := List Row

/-- The POST handler's insert loop (`server.js` lines 407-414): one
`pool.query` per object, in order, each committing on its own — there is no
enclosing transaction, so an error aborts the loop but keeps the state the
earlier statements produced. `exec` is the database: it takes the current
state and one statement and returns the new state and the RETURNING row, or
an error. -/
def postLoop (exec : Db → Stmt → Except String (Db × Row)) (table : String) :
    Db → List Row → Db × Except String (List Row)
  | db, [] => (db, .ok [])
  | db, r :: rs =>
    match exec db (insertStmt table r) with
    | .error e => (db, .error e)
    | .ok (db2, out) =>
      match postLoop exec table db2 rs with
      | (db3, .error e) => (db3, .error e)
      | (db3, .ok outs) => (db3, .ok (out :: outs))

/-- The POST handler (`server.js` lines 401-419): wrap a single object into
a one-element array, run the insert loop, and respond with the single
inserted row when exactly one row was inserted, else with the array; any
error becomes a 500 response (with no rollback of earlier inserts). -/
def postHandler (exec : Db → Stmt → Except String (Db × Row)) (table : String)
    (db : Db) (body : Body) : Db × PostResponse :=
  let rows := match body with
    | .obj f => [f]
    | .arr l => l
  match postLoop exec table db rows with
  | (db2, .error e) => (db2, .err 500 e)
  | (db2, .ok inserted) =>
      (db2, .ok (if inserted.length == 1 then .one (inserted.headD []) else .many inserted))

/-- Does `pat` occur as a contiguous run inside `hay`? -/
def listContains (hay pat : List Char) : Bool :=
  match hay with
  | [] => pat.isPrefixOf ([] : List Char)
  | _ :: rest => pat.isPrefixOf hay || listContains rest pat

/-- Modelled from the spec: the relational engine executing the statements
is external to the repository (`pool.query` reaches Postgres). A mutation
statement whose `WHERE` keyword is followed directly by `RETURNING` — the
empty condition list `where.join(' AND ')` produced `''`, leaving the text
`... WHERE  RETURNING *` — is a SQL syntax error, which the engine reports
without touching any row. -/
def engineRejectsEmptyWhere (text : String) : Bool :=
  listContains text.toList (" WHERE  RETURNING *".toList)

/-- Modelled from the spec: run a PATCH request end to end. A handler
rejection returns its status with the database unchanged; a statement the
engine rejects as malformed returns 500 with the database unchanged;
otherwise `applyUpdate` — the engine's effect, left abstract — produces the
new state, and the status is 200. -/
def runPatch (table : String) (query body : List (String × String)) (db : Db)
    (applyUpdate : Db → Stmt → Db) : Db × Nat :=
  match patchHandler table query body with
  | .reject s _ => (db, s)
  | .exec stmt =>
    if engineRejectsEmptyWhere stmt.text then (db, 500)
    else (applyUpdate db stmt, 200)

/-- Modelled from the spec: run a DELETE request end to end, as `runPatch`
does for PATCH. -/
def runDelete (table : String) (query : List (String × String)) (db : Db)
    (applyDelete : Db → Stmt → Db) : Db × Nat :=
  match deleteHandler table query with
  | .reject s _ => (db, s)
  | .exec stmt =>
    if engineRejectsEmptyWhere stmt.text then (db, 500)
    else (applyDelete db stmt, 200)

/-- A database model that accepts every insert and returns a fixed row, for
the C3 counterexample. -/
def execAlwaysOk : Db → Stmt → Except String (Db × Row) :=
  fun db _ => .ok (db, [("id", "1")])

/-- A scripted database model for the C9 witness: inserting the row named
`a` or `b` appends it and returns it; the row named `c` fails like a
constraint violation; anything else errors. -/
def execScripted : Db → Stmt → Except String (Db × Row) := fun db s =>
  if s == insertStmt "products" [("name", "c")] then .error "duplicate key"
  else if s == insertStmt "products" [("name", "a")] then
    .ok (db ++ [[("name", "a")]], [("name", "a")])
  else if s == insertStmt "products" [("name", "b")] then
    .ok (db ++ [[("name", "b")]], [("name", "b")])
  else .error "unexpected statement"

/-! ## Helper lemmas -/

theorem takeWhile_append_all {p : Char → Bool} {l1 l2 : List Char}
    (h : ∀ c ∈ l1, p c = true) :
    (l1 ++ l2).takeWhile p = l1 ++ l2.takeWhile p := by
  induction l1 with
  | nil => simp
  | cons c rest ih =>
    have hc : p c = true := h c (by simp)
    simp [List.takeWhile_cons, hc, ih fun c hc2 => h c (by simp [hc2])]

theorem isPrefixOf_self (l : List Char) : l.isPrefixOf l = true := by
  induction l with
  | nil => rfl
  | cons c rest ih => simp [List.isPrefixOf, ih]

theorem listContains_append_self (pre pat : List Char) :
    listContains (pre ++ pat) pat = true := by
  induction pre with
  | nil =>
    cases pat with
    | nil => rfl
    | cons c rest => simp [listContains, isPrefixOf_self]
  | cons c pre ih => simp [listContains, ih]

theorem joinSep_mem_data (sep : String) :
    ∀ (l : List String) (a : String), a ∈ l →
      ∃ p q, (joinSep sep l).data = p ++ a.data ++ q
  | [], a, h => absurd h (by simp)
  | [x], a, h => by
    have hx : a = x := by simpa using h
    subst hx
    exact ⟨[], [], by simp [joinSep]⟩
  | x :: y :: rest, a, h => by
    rcases List.mem_cons.mp h with hx | h2
    · subst hx
      exact ⟨[], (sep ++ joinSep sep (y :: rest)).data, by
        simp [joinSep, String.data_append, List.append_assoc]⟩
    · obtain ⟨p, q, hpq⟩ := joinSep_mem_data sep (y :: rest) a h2
      exact ⟨x.data ++ sep.data ++ p, q, by
        simp [joinSep, String.data_append, hpq, List.append_assoc]⟩

theorem foldl_append_data_front (f : Relation → String) :
    ∀ (l : List Relation) (b : String),
      ∃ q, (l.foldl (fun s rel => s ++ f rel) b).data = b.data ++ q
  | [], b => ⟨[], by simp⟩
  | x :: rest, b => by
    obtain ⟨q, hq⟩ := foldl_append_data_front f rest (b ++ f x)
    exact ⟨(f x).data ++ q, by simp [hq, String.data_append, List.append_assoc]⟩

theorem foldl_append_mem_data (f : Relation → String) :
    ∀ (l : List Relation) (b : String) (r : Relation), r ∈ l →
      ∃ p q, (l.foldl (fun s rel => s ++ f rel) b).data = p ++ (f r).data ++ q
  | [], _, r, h => absurd h (by simp)
  | x :: rest, b, r, h => by
    rcases List.mem_cons.mp h with hx | h2
    · subst hx
      obtain ⟨q, hq⟩ := foldl_append_data_front f rest (b ++ f r)
      exact ⟨b.data, q, by simp [hq, String.data_append, List.append_assoc]⟩
    · exact foldl_append_mem_data f rest (b ++ f x) r h2

theorem foldl_eqWhereStep_nop :
    ∀ (l : List (String × String)) (acc : List String × List String × Nat),
      (∀ kv ∈ l, (parseFilter kv.2).op ≠ "eq") → l.foldl eqWhereStep acc = acc
  | [], _, _ => rfl
  | kv :: rest, acc, h => by
    have hkv : ((parseFilter kv.2).op == "eq") = false := by
      simpa using h kv (by simp)
    have : eqWhereStep acc kv = acc := by
      simp [eqWhereStep, hkv]
    rw [List.foldl_cons, this]
    exact foldl_eqWhereStep_nop rest acc fun x hx => h x (by simp [hx])

/-! ## Claim theorems -/

/-- C1: the sentence asks that a table (or column) not on the allow-list of
known tables be rejected with a 400-class error, with no SQL built for it.
The code has no such check: the GET handler executes a statement for every
table name, and for the spec's own example identifier the built SQL text
contains the identifier verbatim. -/
theorem c1_no_table_allowlist :
    getHandler "drop_table_students" [] =
      .exec ⟨"SELECT drop_table_students.* FROM drop_table_students ", []⟩ ∧
    (∀ table query, ∃ stmt, getHandler table query = .exec stmt) ∧
    ∃ p q, ("SELECT drop_table_students.* FROM drop_table_students ").data =
      p ++ ("drop_table_students").data ++ q := by
  refine ⟨by decide, fun t q => ⟨_, rfl⟩, ("SELECT ").data, (".* FROM drop_table_students ").data, ?_⟩
  decide

/-- C2 counterexample: an unrecognized operator token left of the dot is
NOT kept as part of an `eq` literal value — `parseFilter` takes any word
run before a dot as the operator. -/
theorem c2_counterexample :
    parseFilter "foo.bar" = ⟨"foo", "bar"⟩ ∧
    parseFilter "foo.bar" ≠ ⟨"eq", "foo.bar"⟩ := by
  exact ⟨by decide, by decide⟩

/-- C2 amended: for EVERY nonempty word-character token `w` — recognized
operator or not — and every value `v` free of line terminators, parsing
`"w.v"` yields `(operator := w, value := v)`; the `eq` fallback applies only
when no word-run-then-dot pattern matches. -/
theorem c2_filter_parser_amended (w v : String) (hw : w.data ≠ [])
    (hwc : ∀ c ∈ w.data, isWordChar c = true)
    (hv : ∀ c ∈ v.data, isLineTerminator c = false) :
    parseFilter (w ++ "." ++ v) = ⟨w, v⟩ := by
  obtain ⟨wl⟩ := w
  obtain ⟨vl⟩ := v
  simp only at hw hwc hv
  have hdata : (String.mk wl ++ "." ++ String.mk vl).data = wl ++ '.' :: vl := by
    rw [String.data_append, String.data_append, List.append_assoc]
    rfl
  have htake : ((String.mk wl ++ "." ++ String.mk vl).toList).takeWhile isWordChar = wl := by
    show ((String.mk wl ++ "." ++ String.mk vl).data).takeWhile isWordChar = wl
    rw [hdata]
    have : ('.' :: vl).takeWhile isWordChar = [] := by
      simp [List.takeWhile_cons, isWordChar]
    calc (wl ++ '.' :: vl).takeWhile isWordChar
        = wl ++ ('.' :: vl).takeWhile isWordChar := takeWhile_append_all hwc
      _ = wl := by rw [this, List.append_nil]
  have hdrop : ((String.mk wl ++ "." ++ String.mk vl).toList).drop wl.length = '.' :: vl := by
    show ((String.mk wl ++ "." ++ String.mk vl).data).drop wl.length = '.' :: vl
    rw [hdata]
    exact List.drop_left wl _
  have hany : vl.any isLineTerminator = false := by
    rw [List.any_eq_false]
    intro c hc
    simp [hv c hc]
  simp only [parseFilter, htake, hdrop]
  cases wl with
  | nil => exact absurd rfl hw
  | cons c rest => simp [hany]

/-- C2 witness: the amended parse at a concrete recognized operator. -/
theorem c2_filter_parser_amended_witness :
    parseFilter ("lte" ++ "." ++ "5") = ⟨"lte", "5"⟩ :=
  c2_filter_parser_amended "lte" "5" (by decide) (by decide) (by decide)

theorem postLoop_ok_length (exec : Db → Stmt → Except String (Db × Row)) (table : String) :
    ∀ (l : List Row) (db db2 : Db) (outs : List Row),
      postLoop exec table db l = (db2, .ok outs) → outs.length = l.length
  | [], db, db2, outs, h => by
    simp only [postLoop, Prod.mk.injEq, Except.ok.injEq] at h
    simp [← h.2]
  | r :: rs, db, db2, outs, h => by
    simp only [postLoop] at h
    cases hexec : exec db (insertStmt table r) with
    | error e => rw [hexec] at h; cases h
    | ok pr =>
      obtain ⟨dbx, out⟩ := pr
      rw [hexec] at h
      simp only at h
      cases hloop : postLoop exec table dbx rs with
      | mk db3 res =>
        rw [hloop] at h
        cases res with
        | error e => simp at h
        | ok outs2 =>
          simp only [Prod.mk.injEq, Except.ok.injEq] at h
          rw [← h.2]
          simp [postLoop_ok_length exec table rs dbx db3 outs2 hloop]

/-- C3 counterexample: a POST whose body is a one-element ARRAY is answered
with the single inserted row, not with a one-element array as the claim
states. -/
theorem c3_counterexample :
    postHandler execAlwaysOk "products" [] (.arr [[("name", "w")]]) =
      ([], .ok (.one [("id", "1")])) ∧
    (postHandler execAlwaysOk "products" [] (.arr [[("name", "w")]])).2 ≠
      .ok (.many [[("id", "1")]]) := by
  exact ⟨by decide, by decide⟩

/-- C3 amended: the POST response is the single inserted row exactly when
ONE row was inserted — whether the body was a single object or a
one-element array — and an array of the inserted rows, in input order, when
the body was an array of any other length. -/
theorem c3_post_response_shape_amended (exec : Db → Stmt → Except String (Db × Row))
    (table : String) (db : Db) :
    (∀ o db2 out, exec db (insertStmt table o) = .ok (db2, out) →
       postHandler exec table db (.obj o) = (db2, .ok (.one out))) ∧
    (∀ l db2 outs, postLoop exec table db l = (db2, .ok outs) → l.length ≠ 1 →
       postHandler exec table db (.arr l) = (db2, .ok (.many outs)) ∧ outs.length = l.length) ∧
    (∀ o db2 out, exec db (insertStmt table o) = .ok (db2, out) →
       postHandler exec table db (.arr [o]) = (db2, .ok (.one out))) := by
  refine ⟨?_, ?_, ?_⟩
  · intro o db2 out h
    simp [postHandler, postLoop, h]
  · intro l db2 outs h hlen
    have hl := postLoop_ok_length exec table l db db2 outs h
    have : (outs.length == 1) = false := by
      rw [hl]
      exact beq_false_of_ne hlen
    constructor
    · simp [postHandler, h, this]
    · exact hl
  · intro o db2 out h
    simp [postHandler, postLoop, h]

/-- C4 counterexample: a relation-shaped token whose identifier is not in
the relationship map does NOT remain in the leftover string — the matched
span is removed unconditionally, so nothing of it reaches the plain-columns
bucket. -/
theorem c4_counterexample :
    parseSupabaseSelect "*, foo(id)" "products" = (["*"], []) ∧
    ¬ "foo(id)" ∈ (parseSupabaseSelect "*, foo(id)" "products").1 ∧
    ¬ "foo" ∈ (parseSupabaseSelect "*, foo(id)" "products").1 := by
  exact ⟨by decide, by decide, by decide⟩

/-- C4 amended: a relation token naming an identifier absent from the
relationship map records no relation — every recorded relation's fields
come from a hit in the map — but its text does NOT fall through to the
plain-columns bucket: the matched span is removed from the string
unconditionally, so the token is dropped entirely (for example,
`"*, foo(id)"` on `products` parses to plain columns `["*"]` and no
relations). -/
theorem c4_unknown_relation_amended :
    (∀ table s rel, rel ∈ (parseSupabaseSelect s table).2 →
       relationships table rel.name = some ⟨rel.foreignKey, rel.targetTable⟩) ∧
    parseSupabaseSelect "*, foo(id)" "products" = (["*"], []) := by
  constructor
  · intro table s rel hrel
    simp only [parseSupabaseSelect] at hrel
    rw [List.mem_filterMap] at hrel
    obtain ⟨m, _, heq⟩ := hrel
    cases hrl : relationships table (String.mk m.2.1) with
    | none => rw [hrl] at heq; cases heq
    | some info =>
      rw [hrl] at heq
      cases heq
      simpa using hrl
  · decide

/-- C7: a PATCH with no filter key is rejected 400 "Missing filter for
update"; a PATCH with a filter key but an empty body is rejected 400
"Missing body for update"; a DELETE with no filter key is rejected 400
"Missing filter for delete". A `reject` outcome carries no statement, so no
SQL is executed. -/
theorem c7_mutation_validation (table : String) (query body : List (String × String)) :
    ((query.filter fun kv => kv.1 != "select") = [] →
       patchHandler table query body = .reject 400 "Missing filter for update") ∧
    ((query.filter fun kv => kv.1 != "select") ≠ [] → body = [] →
       patchHandler table query body = .reject 400 "Missing body for update") ∧
    ((query.filter fun kv => kv.1 != "select") = [] →
       deleteHandler table query = .reject 400 "Missing filter for delete") := by
  refine ⟨?_, ?_, ?_⟩
  · intro h
    simp [patchHandler, h]
  · intro h hb
    cases hfk : query.filter fun kv => kv.1 != "select" with
    | nil => exact absurd hfk h
    | cons kv rest =>
      subst hb
      simp [patchHandler, hfk]
  · intro h
    simp [deleteHandler, h]

/-- C8 counterexample: in PATCH, only `select` is excluded before filter
parsing — a request whose only querystring key is the reserved key `count`
passes the at-least-one-filter validation, and the key contributes the
WHERE condition `count = $2`, contradicting the claim for PATCH. -/
theorem c8_counterexample :
    patchHandler "products" [("count", "exact")] [("name", "x")] =
      .exec ⟨"UPDATE products SET name = $1 WHERE count = $2 RETURNING *", ["x", "exact"]⟩ ∧
    patchHandler "products" [("count", "exact")] [("name", "x")] ≠
      .reject 400 "Missing filter for update" := by
  exact ⟨by decide, by decide⟩

/-- C8 amended: the GET handler excludes all three reserved keys `select`,
`order` and `count` from filter parsing (they contribute no WHERE condition
and no parameter), but PATCH and DELETE exclude only `select`: an `order`
or `count` key there counts as a filter key for the at-least-one-filter
validation (and can contribute a WHERE condition, as the counterexample
shows). -/
theorem c8_reserved_keys_amended :
    (∀ table acc v k, k = "select" ∨ k = "count" ∨ k = "order" →
       (getFilterStep table acc (k, v)).whereConds = acc.whereConds ∧
       (getFilterStep table acc (k, v)).params = acc.params) ∧
    (∀ table v body, patchHandler table [("order", v)] body ≠
       .reject 400 "Missing filter for update") ∧
    (∀ table v, deleteHandler table [("count", v)] ≠
       .reject 400 "Missing filter for delete") := by
  refine ⟨?_, ?_, ?_⟩
  · intro table acc v k hk
    rcases hk with rfl | rfl | rfl
    · simp [getFilterStep]
    · simp [getFilterStep]
    · simp [getFilterStep]
  · intro table v body hcontra
    have hfk : ([(("order" : String), v)].filter fun kv => kv.1 != "select") =
        [("order", v)] := by simp
    cases hb : body.length == 0 with
    | true => simp [patchHandler, hfk, hb] at hcontra
    | false => simp [patchHandler, hfk, hb] at hcontra
  · intro table v hcontra
    have hfk : ([(("count" : String), v)].filter fun kv => kv.1 != "select") =
        [("count", v)] := by simp
    simp [deleteHandler, hfk] at hcontra

theorem postLoop_stops (exec : Db → Stmt → Except String (Db × Row)) (table : String)
    (bad : Row) (rest : List Row) (e : String)
    (hbad : ∀ db2, exec db2 (insertStmt table bad) = .error e) :
    ∀ (good : List Row) (db : Db),
      (∀ db2 r, r ∈ good → exec db2 (insertStmt table r) = .ok (db2 ++ [r], r)) →
      postLoop exec table db (good ++ bad :: rest) = (db ++ good, .error e)
  | [], db, _ => by
    simp [postLoop, hbad db]
  | g :: gs, db, h => by
    have hg := h db g (by simp)
    have ih := postLoop_stops exec table bad rest e hbad gs (db ++ [g])
      fun db2 r hr => h db2 r (by simp [hr])
    simp only [List.cons_append, postLoop, hg]
    rw [show postLoop exec table (db ++ [g]) (gs.append (bad :: rest)) =
          (db ++ [g] ++ gs, Except.error e) from ih]
    simp [List.append_assoc]

/-- C9: POSTing an array issues one INSERT statement per object with no
enclosing transaction. If every row of `good` inserts successfully and the
next row fails, the loop stops: the rows of `good` remain inserted (no
rollback) and the response is a 500-class error. -/
theorem c9_bulk_insert_not_atomic (exec : Db → Stmt → Except String (Db × Row))
    (table : String) (db : Db) (good : List Row) (bad : Row) (rest : List Row) (e : String)
    (hgood : ∀ db2 r, r ∈ good → exec db2 (insertStmt table r) = .ok (db2 ++ [r], r))
    (hbad : ∀ db2, exec db2 (insertStmt table bad) = .error e) :
    postHandler exec table db (.arr (good ++ bad :: rest)) = (db ++ good, .err 500 e) := by
  simp [postHandler, postLoop_stops exec table bad rest e hbad good db hgood]

/-- C9 witness: a concrete batch of four rows whose third insert fails
leaves exactly the first two rows in the database and answers 500. -/
theorem c9_bulk_insert_not_atomic_witness :
    postHandler execScripted "products" []
      (.arr [[("name", "a")], [("name", "b")], [("name", "c")], [("name", "d")]]) =
      ([[("name", "a")], [("name", "b")]], .err 500 "duplicate key") := by
  have h := c9_bulk_insert_not_atomic execScripted "products" []
    [[("name", "a")], [("name", "b")]] [("name", "c")] [[("name", "d")]] "duplicate key"
    ?hgood ?hbad
  · simpa using h
  case hgood =>
    intro db2 r hr
    simp only [List.mem_cons, List.not_mem_nil, or_false] at hr
    rcases hr with rfl | rfl
    · simp only [execScripted]
      rw [if_neg (by decide), if_pos (by decide)]
    · simp only [execScripted]
      rw [if_neg (by decide), if_neg (by decide), if_pos (by decide)]
  case hbad =>
    intro db2
    simp only [execScripted]
    rw [if_pos (by decide)]

theorem getSelectRaw_single (key v : String) (h1 : key ≠ "select") :
    getSelectRaw [(key, v)] = "*" := by
  have hb : (key == "select") = false := by simpa using h1
  simp [getSelectRaw, qlookup, List.find?_cons, hb]

/-- C5 counterexample: a GET filter using the documented operator `is`
(`deleted_at=is.null`) produces NO WHERE condition at all — the statement
is a bare `SELECT products.* FROM products ` with no `IS` anywhere — so a
recognized filter IS omitted from the WHERE clause, against the claim. -/
theorem c5_counterexample :
    buildGetStmt "products" [("deleted_at", "is.null")] =
      ⟨"SELECT products.* FROM products ", []⟩ ∧
    (getAcc "products" [("deleted_at", "is.null")]).whereConds = [] ∧
    listContains ("SELECT products.* FROM products ").toList (" IS ".toList) = false := by
  exact ⟨by decide, by decide, by decide⟩

/-- C5 amended: of the six documented operator tokens only four are
implemented — `eq`→`=`, `neq`→`!=`, `lte`→`<=`, `gte`→`>=`, each producing
the condition `table.key OP $1` with the value as the bound parameter — and
a filter whose parsed operator is anything else (`is` and `not` included)
is silently dropped, producing no WHERE condition at all. -/
theorem c5_operator_mapping_amended (table key val : String)
    (h1 : key ≠ "select") (h2 : key ≠ "count") (h3 : key ≠ "order") :
    ((parseFilter val).op = "eq" → buildGetStmt table [(key, val)] =
       ⟨"SELECT " ++ table ++ ".* FROM " ++ table ++ "  WHERE " ++ table ++ "." ++ key ++ " = $1",
        [(parseFilter val).value]⟩) ∧
    ((parseFilter val).op = "neq" → buildGetStmt table [(key, val)] =
       ⟨"SELECT " ++ table ++ ".* FROM " ++ table ++ "  WHERE " ++ table ++ "." ++ key ++ " != $1",
        [(parseFilter val).value]⟩) ∧
    ((parseFilter val).op = "lte" → buildGetStmt table [(key, val)] =
       ⟨"SELECT " ++ table ++ ".* FROM " ++ table ++ "  WHERE " ++ table ++ "." ++ key ++ " <= $1",
        [(parseFilter val).value]⟩) ∧
    ((parseFilter val).op = "gte" → buildGetStmt table [(key, val)] =
       ⟨"SELECT " ++ table ++ ".* FROM " ++ table ++ "  WHERE " ++ table ++ "." ++ key ++ " >= $1",
        [(parseFilter val).value]⟩) ∧
    ((parseFilter val).op ≠ "eq" → (parseFilter val).op ≠ "neq" →
     (parseFilter val).op ≠ "lte" → (parseFilter val).op ≠ "gte" →
       buildGetStmt table [(key, val)] =
         ⟨"SELECT " ++ table ++ ".* FROM " ++ table ++ " ", []⟩) := by
  have hb1 : (key == "select") = false := by simpa using h1
  have hb2 : (key == "count") = false := by simpa using h2
  have hb3 : (key == "order") = false := by simpa using h3
  have hsel : getSelectRaw [(key, val)] = "*" := getSelectRaw_single key val h1
  have hparse : parseSupabaseSelect (getSelectRaw [(key, val)]) table = (["*"], []) := by
    rw [hsel]; rfl
  refine ⟨?_, ?_, ?_, ?_, ?_⟩
  · intro hop
    have hacc : getAcc table [(key, val)] =
        ⟨[table ++ "." ++ key ++ " = $" ++ toString 1], [(parseFilter val).value], "", 2⟩ := by
      simp [getAcc, getFilterStep, hb1, hb2, hb3, hop]
    simp only [buildGetStmt, getSelectClause, getBase, getJoins, getWhereStr, hparse, hacc,
      Stmt.mk.injEq]
    exact ⟨by simp [joinSep, String.append_assoc]; rfl, trivial⟩
  · intro hop
    have hacc : getAcc table [(key, val)] =
        ⟨[table ++ "." ++ key ++ " != $" ++ toString 1], [(parseFilter val).value], "", 2⟩ := by
      simp [getAcc, getFilterStep, hb1, hb2, hb3, hop]
    simp only [buildGetStmt, getSelectClause, getBase, getJoins, getWhereStr, hparse, hacc,
      Stmt.mk.injEq]
    exact ⟨by simp [joinSep, String.append_assoc]; rfl, trivial⟩
  · intro hop
    have hacc : getAcc table [(key, val)] =
        ⟨[table ++ "." ++ key ++ " <= $" ++ toString 1], [(parseFilter val).value], "", 2⟩ := by
      simp [getAcc, getFilterStep, hb1, hb2, hb3, hop]
    simp only [buildGetStmt, getSelectClause, getBase, getJoins, getWhereStr, hparse, hacc,
      Stmt.mk.injEq]
    exact ⟨by simp [joinSep, String.append_assoc]; rfl, trivial⟩
  · intro hop
    have hacc : getAcc table [(key, val)] =
        ⟨[table ++ "." ++ key ++ " >= $" ++ toString 1], [(parseFilter val).value], "", 2⟩ := by
      simp [getAcc, getFilterStep, hb1, hb2, hb3, hop]
    simp only [buildGetStmt, getSelectClause, getBase, getJoins, getWhereStr, hparse, hacc,
      Stmt.mk.injEq]
    exact ⟨by simp [joinSep, String.append_assoc]; rfl, trivial⟩
  · intro hop1 hop2 hop3 hop4
    have hacc : getAcc table [(key, val)] = ⟨[], [], "", 1⟩ := by
      simp [getAcc, getFilterStep, hb1, hb2, hb3,
        (by simpa using hop1 : ((parseFilter val).op == "eq") = false),
        (by simpa using hop2 : ((parseFilter val).op == "neq") = false),
        (by simpa using hop3 : ((parseFilter val).op == "lte") = false),
        (by simpa using hop4 : ((parseFilter val).op == "gte") = false)]
    simp only [buildGetStmt, getSelectClause, getBase, getJoins, getWhereStr, hparse, hacc,
      Stmt.mk.injEq]
    exact ⟨by simp [joinSep, String.append_assoc], trivial⟩

/-- C5 witness: the amended mapping at a concrete `lte` filter. -/
theorem c5_operator_mapping_amended_witness :
    buildGetStmt "products" [("price", "lte.5")] =
      ⟨"SELECT products.* FROM products  WHERE products.price <= $1", ["5"]⟩ :=
  (c5_operator_mapping_amended "products" "price" "lte.5"
    (by decide) (by decide) (by decide)).2.2.1 (by decide)

theorem text_mid_of_join (table : String) (query : List (String × String))
    (pat p q : List Char)
    (hJ : (joinSep " " (getJoins table query)).data = p ++ pat ++ q) :
    ∃ p2 q2, (buildGetStmt table query).text.data = p2 ++ pat ++ q2 := by
  refine ⟨("SELECT " ++ getSelectClause table query ++ " FROM " ++ table ++ " ").data ++ p,
    q ++ (getWhereStr table query ++ (getAcc table query).orderClause).data, ?_⟩
  show ("SELECT " ++ getSelectClause table query ++ " FROM " ++ table ++ " " ++
      joinSep " " (getJoins table query) ++ getWhereStr table query ++
      (getAcc table query).orderClause).data = _
  simp only [String.data_append, hJ, List.append_assoc]

theorem text_mid_of_selectClause (table : String) (query : List (String × String))
    (pat p q : List Char)
    (hS : (getSelectClause table query).data = p ++ pat ++ q) :
    ∃ p2 q2, (buildGetStmt table query).text.data = p2 ++ pat ++ q2 := by
  refine ⟨("SELECT ").data ++ p,
    q ++ (" FROM " ++ table ++ " " ++ joinSep " " (getJoins table query) ++
      getWhereStr table query ++ (getAcc table query).orderClause).data, ?_⟩
  show ("SELECT " ++ getSelectClause table query ++ " FROM " ++ table ++ " " ++
      joinSep " " (getJoins table query) ++ getWhereStr table query ++
      (getAcc table query).orderClause).data = _
  simp only [String.data_append, hS, List.append_assoc]

/-- C6: for every relation the select parser records (one whose identifier
is in the relationship map), the GET statement's text contains both the
`LEFT JOIN target ON table.fk = target.id` clause and the
`, json_build_object('c1', target.c1, ...) as name` projection built from
exactly the requested columns — one JSON object per relation per row. -/
theorem c6_relation_join_projection (table : String) (query : List (String × String))
    (rel : Relation)
    (hrel : rel ∈ (parseSupabaseSelect (getSelectRaw query) table).2) :
    (∃ p q, (buildGetStmt table query).text.data = p ++ (relJoin table rel).data ++ q) ∧
    (∃ p q, (buildGetStmt table query).text.data = p ++ (relProjection rel).data ++ q) := by
  constructor
  · obtain ⟨p, q, hJ⟩ := joinSep_mem_data " " (getJoins table query) (relJoin table rel)
      (List.mem_map_of_mem _ hrel)
    exact text_mid_of_join table query _ p q hJ
  · obtain ⟨p, q, hS⟩ := foldl_append_mem_data relProjection
      (parseSupabaseSelect (getSelectRaw query) table).2 (getBase table query) rel hrel
    exact text_mid_of_selectClause table query _ p q hS

/-- C6 witness: the spec's own example
`GET /api/products?select=*,categories(id,name)`. -/
theorem c6_relation_join_projection_witness :
    (∃ p q, (buildGetStmt "products" [("select", "*,categories(id,name)")]).text.data =
       p ++ (relJoin "products"
         ⟨"categories", ["id", "name"], "category_id", "categories"⟩).data ++ q) ∧
    (∃ p q, (buildGetStmt "products" [("select", "*,categories(id,name)")]).text.data =
       p ++ (relProjection
         ⟨"categories", ["id", "name"], "category_id", "categories"⟩).data ++ q) :=
  c6_relation_join_projection "products" [("select", "*,categories(id,name)")]
    ⟨"categories", ["id", "name"], "category_id", "categories"⟩ (by decide)

theorem engineRejects_of_suffix (b : String) :
    engineRejectsEmptyWhere (b ++ " WHERE  RETURNING *") = true := by
  show listContains (b ++ " WHERE  RETURNING *").data (" WHERE  RETURNING *").toList = true
  rw [String.data_append]
  exact listContains_append_self b.data _

/-- C10: when a PATCH or DELETE carries at least one filter key (none of
them `select`) but every filter's parsed operator differs from `eq`, the
validation passes and a statement with an EMPTY WHERE condition list is
built — text of the shape `... WHERE  RETURNING *` — which the database
engine rejects as malformed SQL: the end-to-end run answers 500 and leaves
the database unchanged, not an unfiltered mutation of every row. -/
theorem c10_non_eq_filters_malformed_mutation (table : String)
    (query body : List (String × String)) (db : Db)
    (applyUpdate applyDelete : Db → Stmt → Db)
    (hq : query ≠ []) (hk : ∀ kv ∈ query, kv.1 ≠ "select")
    (hop : ∀ kv ∈ query, (parseFilter kv.2).op ≠ "eq")
    (hb : body ≠ []) :
    patchHandler table query body = .exec
      ⟨"UPDATE " ++ table ++ " SET " ++
          joinSep ", " (body.enum.map fun p => p.2.1 ++ " = $" ++ toString (p.1 + 1)) ++
          " WHERE  RETURNING *",
       body.map (·.2)⟩ ∧
    deleteHandler table query = .exec ⟨"DELETE FROM " ++ table ++ " WHERE  RETURNING *", []⟩ ∧
    runPatch table query body db applyUpdate = (db, 500) ∧
    runDelete table query db applyDelete = (db, 500) := by
  have hfilter : (query.filter fun kv => kv.1 != "select") = query := by
    rw [List.filter_eq_self]
    intro a ha
    simpa using hk a ha
  have hqlen : (query.length == 0) = false := by
    cases query with
    | nil => exact absurd rfl hq
    | cons kv rest => rfl
  have hblen : (body.length == 0) = false := by
    cases body with
    | nil => exact absurd rfl hb
    | cons kv rest => rfl
  have hwhP : query.foldl eqWhereStep ([], [], body.length + 1) = ([], [], body.length + 1) :=
    foldl_eqWhereStep_nop query _ hop
  have hwhD : query.foldl eqWhereStep ([], [], 1) = ([], [], 1) :=
    foldl_eqWhereStep_nop query _ hop
  have hmerge : ∀ s : String, s ++ " WHERE " ++ joinSep " AND " [] ++ " RETURNING *" =
      s ++ " WHERE  RETURNING *" := by
    intro s
    show s ++ " WHERE " ++ "" ++ " RETURNING *" = s ++ " WHERE  RETURNING *"
    rw [String.append_empty, String.append_assoc]
    rfl
  have hpatch : patchHandler table query body = .exec
      ⟨"UPDATE " ++ table ++ " SET " ++
          joinSep ", " (body.enum.map fun p => p.2.1 ++ " = $" ++ toString (p.1 + 1)) ++
          " WHERE  RETURNING *",
       body.map (·.2)⟩ := by
    simp only [patchHandler, hfilter, hqlen, hblen, hwhP, Bool.false_eq_true, if_false]
    rw [hmerge]
    simp
  have hdelete : deleteHandler table query =
      .exec ⟨"DELETE FROM " ++ table ++ " WHERE  RETURNING *", []⟩ := by
    simp only [deleteHandler, hfilter, hqlen, hwhD, Bool.false_eq_true, if_false]
    rw [hmerge]
  refine ⟨hpatch, hdelete, ?_, ?_⟩
  · simp only [runPatch, hpatch, engineRejects_of_suffix, if_true]
  · simp only [runDelete, hdelete, engineRejects_of_suffix, if_true]

/-- C10 witness: a PATCH and a DELETE filtered only by `id=neq.3`. -/
theorem c10_non_eq_filters_malformed_mutation_witness :
    patchHandler "products" [("id", "neq.3")] [("name", "x")] =
      .exec ⟨"UPDATE products SET name = $1 WHERE  RETURNING *", ["x"]⟩ ∧
    deleteHandler "products" [("id", "neq.3")] =
      .exec ⟨"DELETE FROM products WHERE  RETURNING *", []⟩ ∧
    runPatch "products" [("id", "neq.3")] [("name", "x")] [] (fun db _ => db) = ([], 500) ∧
    runDelete "products" [("id", "neq.3")] [] (fun db _ => db) = ([], 500) :=
  c10_non_eq_filters_malformed_mutation "products" [("id", "neq.3")] [("name", "x")] []
    (fun db _ => db) (fun db _ => db) (by decide) (by decide) (by decide) (by decide)

end MarketPi
